import Mathlib

/-!
Verification of the credential and request-lifecycle subsystem of the gsuite
adapter (src/oauth/token-manager.ts, src/oauth/google-oauth-client.ts,
src/index.ts).  Shallow embedding: machine integers are Nat/Int, fallible
operations return Option/Except, external collaborators (the Google
authorization server, the platform keychain, node crypto primitives) are
modelled as explicit parameters or as idealized deterministic functions.
-/

/-! ## Data model: OAuth2Tokens (src/oauth/google-oauth-client.ts, lines 7-13;
identical interface in src/oauth/token-manager.ts, lines 6-12).
TypeScript optional-or-null fields become Option. `expiry_date` is a
millisecond timestamp. -/

deriving instance DecidableEq for Except

structure OAuth2Tokens where
  access_token : Option String
  refresh_token : Option String
  expiry_date : Option Int
  scope : Option String
  token_type : Option String
deriving DecidableEq, Repr

/-! ## Serialization of the token record.

The source serializes the record with JSON.stringify and reads it back with
JSON.parse (token-manager.ts lines 219 and 247).  We model this as a concrete
injective byte encoding with a verified left-inverse decoder: a
self-delimiting base-255 encoding (digits 0..254, terminator byte 255) for
naturals, sign byte + magnitude for integers, code points for characters,
length-prefixed character lists for strings, and tag bytes for Option. -/

def encNat (n : Nat) : List Nat :=
  if h : n = 0 then [255]
  else (n % 255) :: encNat (n / 255)
termination_by n
decreasing_by
  exact Nat.div_lt_self (Nat.pos_of_ne_zero h) (by norm_num)

def decNat : List Nat → Option (Nat × List Nat)
  | [] => none
  | b :: bs =>
    if b = 255 then some (0, bs)
    else
      match decNat bs with
      | some (m, rest) => some (b + 255 * m, rest)
      | none => none

def encInt (i : Int) : List Nat :=
  (if i < 0 then 1 else 0) :: encNat i.natAbs

def decInt (bs : List Nat) : Option (Int × List Nat) :=
  match bs with
  | [] => none
  | s :: rest =>
    match decNat rest with
    | some (m, rest2) =>
      if s = 1 then some (-(m : Int), rest2)
      else if s = 0 then some ((m : Int), rest2)
      else none
    | none => none

def charOfNat? (n : Nat) : Option Char :=
  if n.isValidChar then some (Char.ofNat n) else none

def encChar (c : Char) : List Nat := encNat c.toNat

def decChar (bs : List Nat) : Option (Char × List Nat) :=
  match decNat bs with
  | some (n, rest) =>
    match charOfNat? n with
    | some c => some (c, rest)
    | none => none
  | none => none

def encCharList : List Char → List Nat
  | [] => []
  | c :: cs => encChar c ++ encCharList cs

def decCharList : Nat → List Nat → Option (List Char × List Nat)
  | 0, bs => some ([], bs)
  | k + 1, bs =>
    match decChar bs with
    | some (c, rest) =>
      match decCharList k rest with
      | some (cs, rest2) => some (c :: cs, rest2)
      | none => none
    | none => none

def encString (s : String) : List Nat :=
  encNat s.length ++ encCharList s.toList

def decString (bs : List Nat) : Option (String × List Nat) :=
  match decNat bs with
  | some (k, rest) =>
    match decCharList k rest with
    | some (cs, rest2) => some (String.mk cs, rest2)
    | none => none
  | none => none

def encOpt {α : Type} (enc : α → List Nat) : Option α → List Nat
  | none => [0]
  | some a => 1 :: enc a

def decOpt {α : Type} (dec : List Nat → Option (α × List Nat)) :
    List Nat → Option (Option α × List Nat)
  | [] => none
  | b :: bs =>
    if b = 0 then some (none, bs)
    else if b = 1 then
      match dec bs with
      | some (a, rest) => some (some a, rest)
      | none => none
    else none

/-- Models JSON.stringify(tokens) at token-manager.ts line 219: an injective
serialization of the token record to bytes. -/
def serializeTokens (t : OAuth2Tokens) : List Nat :=
  encOpt encString t.access_token ++ encOpt encString t.refresh_token ++
  encOpt encInt t.expiry_date ++ encOpt encString t.scope ++
  encOpt encString t.token_type

/-- Models JSON.parse of the decrypted plaintext at token-manager.ts line 247. -/
def deserializeTokens (bs : List Nat) : Option OAuth2Tokens :=
  match decOpt decString bs with
  | none => none
  | some (a, r1) =>
    match decOpt decString r1 with
    | none => none
    | some (rf, r2) =>
      match decOpt decInt r2 with
      | none => none
      | some (ex, r3) =>
        match decOpt decString r3 with
        | none => none
        | some (sc, r4) =>
          match decOpt decString r4 with
          | none => none
          | some (tt, r5) =>
            if r5 = [] then some ⟨a, rf, ex, sc, tt⟩ else none

/-! ## Hex encoding (token-manager.ts lines 219-228: iv, authTag and the
ciphertext are stored hex-encoded in the envelope; lines 240-244 decode). -/

def hexDigitChar (n : Nat) : Char :=
  match n with
  | 0 => '0' | 1 => '1' | 2 => '2' | 3 => '3' | 4 => '4' | 5 => '5'
  | 6 => '6' | 7 => '7' | 8 => '8' | 9 => '9' | 10 => 'a' | 11 => 'b'
  | 12 => 'c' | 13 => 'd' | 14 => 'e' | _ => 'f'

def hexDigitVal (c : Char) : Option Nat :=
  if 48 ≤ c.toNat ∧ c.toNat ≤ 57 then some (c.toNat - 48)
  else if 97 ≤ c.toNat ∧ c.toNat ≤ 102 then some (c.toNat - 87)
  else if 65 ≤ c.toNat ∧ c.toNat ≤ 70 then some (c.toNat - 55)
  else none

def bytesToHex : List Nat → List Char
  | [] => []
  | b :: bs => hexDigitChar (b / 16) :: hexDigitChar (b % 16) :: bytesToHex bs

def hexToBytes : List Char → List Nat
  | c1 :: c2 :: cs =>
    match hexDigitVal c1, hexDigitVal c2 with
    | some d1, some d2 => (16 * d1 + d2) :: hexToBytes cs
    | _, _ => []
  | _ => []

/-! ## File-based fallback encryption (token-manager.ts lines 212-256).

The AES-256-GCM primitive of node crypto and PBKDF2-SHA512 are external
library functions; they are modelled as an idealized authenticated stream
cipher (a keystream xor, plus an authentication tag that is injective per
(key, iv), idealizing GCM tag verification) and as a deterministic key
derivation function of exactly its four arguments. -/

structure SysEnv where
  hostname : String
  username : String
  processStart : Nat
deriving DecidableEq, Repr

def charSum (s : String) : Nat := (s.toList.map Char.toNat).sum

/-- Models crypto.pbkdf2Sync(password, salt, iterations, keylen, sha512):
a deterministic function of its arguments producing keylen bytes. -/
def pbkdf2 (password salt : String) (iterations keylen : Nat) : List Nat :=
  (List.range keylen).map (fun i =>
    (charSum password * 131 + charSum salt * 37 + iterations * 17 + i * 97 + 7) % 256)

/-- TokenManager.getDerivedKey (token-manager.ts lines 253-256): the key is
derived from the fixed password mcp-oauth and the hostname-username salt,
100000 iterations, 32-byte output. -/
def getDerivedKey (env : SysEnv) : List Nat :=
  pbkdf2 "mcp-oauth" (env.hostname ++ "-" ++ env.username) 100000 32

def keystream (key iv : List Nat) (i : Nat) : Nat :=
  (key.sum * 101 + iv.sum * 59 + i * 41 + 3) % 256

/-- The keystream-xor core of the idealized AES-256-GCM model
(cipher.update / decipher.update). -/
def xorStream (key iv : List Nat) : Nat → List Nat → List Nat
  | _, [] => []
  | i, b :: bs => (b ^^^ keystream key iv i) :: xorStream key iv (i + 1) bs

/-- The GCM authentication tag, idealized as an authenticator that is
injective in the ciphertext for a fixed key and iv (cipher.getAuthTag /
decipher.setAuthTag + decipher.final verification). -/
def macTag (key iv ct : List Nat) : List Nat := key ++ iv ++ ct

/-- The envelope written at token-manager.ts lines 224-229:
JSON.stringify of type, hex iv, hex authTag, hex ciphertext. -/
structure FileEnvelope where
  envType : String
  iv : List Char
  authTag : List Char
  data : List Char
deriving DecidableEq, Repr

/-- TokenManager.encryptTokenDataFile (token-manager.ts lines 212-230).
The random 16-byte iv from crypto.randomBytes is a parameter. -/
def encryptTokenDataFile (env : SysEnv) (iv : List Nat) (tokens : OAuth2Tokens) :
    FileEnvelope :=
  let key := getDerivedKey env
  let ct := xorStream key iv 0 (serializeTokens tokens)
  { envType := "file"
    iv := bytesToHex iv
    authTag := bytesToHex (macTag key iv ct)
    data := bytesToHex ct }

/-- TokenManager.decryptTokenDataFile (token-manager.ts lines 235-248).
Hex fields are decoded with the node semantics of Buffer.from(str, hex):
case-insensitive, silently truncating at the first invalid or incomplete
pair, never failing.  A throw of the source (failed auth tag verification
at decipher.final, JSON.parse failure) is modelled as none. -/
def decryptTokenDataFile (env : SysEnv) (e : FileEnvelope) : Option OAuth2Tokens :=
  if hexToBytes e.authTag =
      macTag (getDerivedKey env) (hexToBytes e.iv) (hexToBytes e.data) then
    deserializeTokens
      (xorStream (getDerivedKey env) (hexToBytes e.iv) 0 (hexToBytes e.data))
  else none

/-! ## TokenManager.getTokens / decryptTokenData (token-manager.ts lines
63-93 and 136-149).  The keychain backend (keytar) and the concrete file
decryption are external effects here; their outcomes are parameters. -/

/-- How the stored blob parses at token-manager.ts line 138: a JSON object
with type keychain, some other JSON value, or unparseable data. -/
inductive StoredRecordKind
  | keychainRef
  | fileRecord
  | unparseable
deriving DecidableEq, Repr

/-- TokenManager.decryptTokenData (lines 136-149): dispatch on the stored
discriminator; any failure of the keychain path (and of JSON.parse) falls
back to file decryption.  keychainOutcome and fileOutcome are the outcomes
of decryptFromKeychain and decryptTokenDataFile on the stored blob. -/
def decryptTokenData (kind : StoredRecordKind)
    (keychainOutcome fileOutcome : Except Unit OAuth2Tokens) :
    Except Unit OAuth2Tokens :=
  match kind with
  | .keychainRef =>
    match keychainOutcome with
    | .ok t => .ok t
    | .error _ => fileOutcome
  | .fileRecord => fileOutcome
  | .unparseable => fileOutcome

/-- TokenManager.getTokens (lines 63-93): no file means not yet authorized
(ok none); a decryption failure is caught at line 87 and also yields null. -/
def getTokens (fileExists : Bool) (kind : StoredRecordKind)
    (keychainOutcome fileOutcome : Except Unit OAuth2Tokens) :
    Except Unit (Option OAuth2Tokens) :=
  if fileExists then
    match decryptTokenData kind keychainOutcome fileOutcome with
    | .ok t => .ok (some t)
    | .error _ => .ok none
  else .ok none

/-! ## GoogleOAuthClient token expiry and getValidAccessToken
(google-oauth-client.ts lines 58-83, 122-129, 134-138, 219-226). -/

/-- JavaScript truthiness of an optional string field: null, undefined and
the empty string are falsy ("if (!tokens.refresh_token)" and friends). -/
def truthy (o : Option String) : Bool := !(o.getD "").isEmpty

/-- The 5-minute safety buffer in milliseconds (line 135). -/
def buffer : Int := 5 * 60 * 1000

/-- GoogleOAuthClient.isTokenExpired (lines 134-138): a null or absent
expiry_date is coerced to 0 by the or-default. -/
def isTokenExpired (now : Int) (tokens : OAuth2Tokens) : Bool :=
  now + buffer ≥ tokens.expiry_date.getD 0

/-- The distinct failures thrown by getValidAccessToken (lines 70, 74, 80)
and the propagated rejection of oauth2Client.refreshAccessToken (line 125). -/
inductive TokenError
  | noRefreshTokenAvailable
  | refreshRequestRejected
  | failedToRefreshAccessToken
  | noAccessTokenAvailable
deriving DecidableEq, Repr

structure TokenFetchResult where
  result : Except TokenError String
  refreshCalls : Nat
  authorizeStarted : Bool
  storedAfter : Option OAuth2Tokens
deriving DecidableEq, Repr

/-- GoogleOAuthClient.getValidAccessToken for a present stored credential
(lines 67-82), composed with refreshTokens (lines 122-129).  The guards at
lines 69, 73 and 79 are JavaScript truthy checks, so an empty-string token
is treated like a missing one.  refreshOutcome is the outcome of the
external oauth2Client.refreshAccessToken call; on success refreshTokens
stores the credentials (line 126) before line 73 checks the access token.
refreshCalls counts outbound refresh requests. -/
def getValidAccessTokenStored (now : Int) (tokens : OAuth2Tokens)
    (refreshOutcome : Except Unit OAuth2Tokens) : TokenFetchResult :=
  if isTokenExpired now tokens then
    if truthy tokens.refresh_token then
      match refreshOutcome with
      | .error _ => ⟨.error .refreshRequestRejected, 1, false, some tokens⟩
      | .ok creds =>
        if truthy creds.access_token then
          ⟨.ok (creds.access_token.getD ""), 1, false, some creds⟩
        else ⟨.error .failedToRefreshAccessToken, 1, false, some creds⟩
    else ⟨.error .noRefreshTokenAvailable, 0, false, some tokens⟩
  else
    if truthy tokens.access_token then
      ⟨.ok (tokens.access_token.getD ""), 0, false, some tokens⟩
    else ⟨.error .noAccessTokenAvailable, 0, false, some tokens⟩

/-- GoogleOAuthClient.getValidAccessToken (lines 58-83).  When no credential
is stored, the interactive flow runs (line 63) and the call retries; the
flow's stored outcome is the authFlowTokens parameter. -/
def getValidAccessToken (now : Int) (stored : Option OAuth2Tokens)
    (authFlowTokens : OAuth2Tokens) (refreshOutcome : Except Unit OAuth2Tokens) :
    TokenFetchResult :=
  match stored with
  | some t => getValidAccessTokenStored now t refreshOutcome
  | none =>
    let r := getValidAccessTokenStored now authFlowTokens refreshOutcome
    ⟨r.result, r.refreshCalls, true, r.storedAfter⟩

/-- GoogleOAuthClient.isAuthenticated (lines 219-226): true only for a
loaded credential with a truthy (non-empty) access token that is not within
the expiry buffer; any load failure is caught and yields false.  The
function performs no refresh and no interactive flow: it is a pure
observation of the loaded record. -/
def isAuthenticated (now : Int)
    (getTokensOutcome : Except Unit (Option OAuth2Tokens)) : Bool :=
  match getTokensOutcome with
  | .error _ => false
  | .ok none => false
  | .ok (some t) => !(t.access_token.getD "").isEmpty && !isTokenExpired now t

/-! ## Concurrent refresh race (claim C1).

Two callers run getValidAccessToken concurrently over the shared stored
credential.  JavaScript interleaves them at await boundaries; the model
gives each caller two atomic segments: the getTokens read (line 59), and
the expiry check + refresh + store + return (lines 67-82, with the refresh
network call counted).   A schedule is the order in which callers take
steps. -/

inductive CallerPhase
  | ready
  | readDone
  | finished
deriving DecidableEq, Repr

structure CallerState where
  phase : CallerPhase
  observed : Option OAuth2Tokens
  callResult : Option (Except TokenError String)
deriving DecidableEq, Repr

structure RaceState where
  stored : Option OAuth2Tokens
  refreshCalls : Nat
  callers : List CallerState
deriving DecidableEq, Repr

/-- One step of one caller, with the same JavaScript truthy guards as
getValidAccessTokenStored.  The claims exercise only a present stored
credential, so a caller that read none simply finishes with no result
(the interactive flow is out of scope of the race). -/
def raceStepCaller (now : Int) (oracle : Except Unit OAuth2Tokens)
    (stored : Option OAuth2Tokens) (refreshCalls : Nat) (c : CallerState) :
    Option OAuth2Tokens × Nat × CallerState :=
  match c.phase with
  | .finished => (stored, refreshCalls, c)
  | .ready => (stored, refreshCalls, ⟨.readDone, stored, none⟩)
  | .readDone =>
    match c.observed with
    | none => (stored, refreshCalls, ⟨.finished, c.observed, none⟩)
    | some t =>
      if isTokenExpired now t then
        if truthy t.refresh_token then
          match oracle with
          | .error _ =>
            (stored, refreshCalls + 1,
              ⟨.finished, c.observed, some (.error .refreshRequestRejected)⟩)
          | .ok creds =>
            if truthy creds.access_token then
              (some creds, refreshCalls + 1,
                ⟨.finished, c.observed, some (.ok (creds.access_token.getD ""))⟩)
            else
              (some creds, refreshCalls + 1,
                ⟨.finished, c.observed, some (.error .failedToRefreshAccessToken)⟩)
        else
          (stored, refreshCalls,
            ⟨.finished, c.observed, some (.error .noRefreshTokenAvailable)⟩)
      else
        if truthy t.access_token then
          (stored, refreshCalls,
            ⟨.finished, c.observed, some (.ok (t.access_token.getD ""))⟩)
        else
          (stored, refreshCalls,
            ⟨.finished, c.observed, some (.error .noAccessTokenAvailable)⟩)

def raceStep (now : Int) (oracle : Except Unit OAuth2Tokens) (st : RaceState)
    (i : Nat) : RaceState :=
  match st.callers.get? i with
  | none => st
  | some c =>
    let r := raceStepCaller now oracle st.stored st.refreshCalls c
    ⟨r.1, r.2.1, st.callers.set i r.2.2⟩

def runRace (now : Int) (oracle : Except Unit OAuth2Tokens)
    (sched : List Nat) (st : RaceState) : RaceState :=
  sched.foldl (raceStep now oracle) st

def initRace (stored : Option OAuth2Tokens) (n : Nat) : RaceState :=
  ⟨stored, 0, List.replicate n ⟨.ready, none, none⟩⟩

/-! ## Callback server (google-oauth-client.ts lines 143-195, claim C6).

The listener is modelled as a state machine over the trace of events it
receives: incoming HTTP requests (with optional code and error query
parameters, checked for JavaScript truthiness) and the firing of the
5-minute timeout.  The promise settles at most once; a closed server
receives no further requests, while the timeout callback can still fire
after close (its settle attempt is then a no-op). -/

inductive CbError
  | authFailed (msg : String)
  | timeout
deriving DecidableEq, Repr

inductive CbEvent
  | request (code : Option String) (error : Option String)
  | timerFired
deriving DecidableEq, Repr

structure CbState where
  closed : Bool
  settled : Option (Except CbError String)
deriving DecidableEq, Repr

def cbStep (s : CbState) (e : CbEvent) : CbState :=
  match e with
  | .request code err =>
    if s.closed then s
    else if truthy code then
      ⟨true, match s.settled with
             | some r => some r
             | none => some (.ok (code.getD ""))⟩
    else if truthy err then
      ⟨true, match s.settled with
             | some r => some r
             | none => some (.error (.authFailed (err.getD "")))⟩
    else s
  | .timerFired =>
    ⟨true, match s.settled with | some r => some r | none => some (.error .timeout)⟩

/-- An invalid callback request: neither a truthy code nor a truthy error
query value (lines 174-177 answer 400 without closing or settling);
empty-string values count as invalid because the guards at lines 148 and
161 are JavaScript truthy checks. -/
def cbNoise : CbEvent → Bool
  | .request code err => !truthy code && !truthy err
  | .timerFired => false

def runCallbackServer (events : List CbEvent) : CbState :=
  events.foldl cbStep ⟨false, none⟩

/-! ## Request Tracker (claim C7).

Modelled from the spec: the RequestTracker implementation
(src/services/request-tracker.ts) is not in the snapshot; only its caller
src/index.ts is.  Per the spec, cancelRequest looks up the context by
request id; if present it triggers its cancellation source with the
supplied reason and returns true; if absent it returns false without error
and without side effects. -/

structure RequestContext where
  requestId : String
  toolName : String
  progressToken : Option String
  cancelled : Bool
  cancelReason : Option String
deriving DecidableEq, Repr

structure TrackerState where
  requests : List (String × RequestContext)
deriving DecidableEq, Repr

def lookupRequest (st : TrackerState) (id : String) : Option RequestContext :=
  (st.requests.find? (fun p => p.1 == id)).map (fun p => p.2)

/-- Modelled from the spec: triggering one context's cancellation source
with the supplied reason, leaving every other entry untouched. -/
def cancelMark (id : String) (reason : Option String)
    (p : String × RequestContext) : String × RequestContext :=
  if p.1 == id then
    (p.1, ⟨p.2.requestId, p.2.toolName, p.2.progressToken, true, reason⟩)
  else p

/-- Modelled from the spec: RequestTracker.cancelRequest(requestId, reason). -/
def cancelRequest (st : TrackerState) (id : String) (reason : Option String) :
    Bool × TrackerState :=
  match lookupRequest st id with
  | some _ => (true, ⟨st.requests.map (cancelMark id reason)⟩)
  | none => (false, st)

/-! ## Concrete fixtures for counterexamples and witnesses -/

def freshTokens : OAuth2Tokens :=
  ⟨some "stored-token", some "refresh-token", some 1000000000, none, some "Bearer"⟩

def expiredTokens : OAuth2Tokens :=
  ⟨some "old-token", some "refresh-token", some 0, none, some "Bearer"⟩

def expiredNoRefresh : OAuth2Tokens :=
  ⟨some "old-token", none, some 0, none, none⟩

def refreshedTokens : OAuth2Tokens :=
  ⟨some "new-token", some "refresh-token", some 86400000, none, some "Bearer"⟩

def noExpiryTokens : OAuth2Tokens :=
  ⟨some "tok", some "refresh-token", none, none, none⟩

def envEx : SysEnv := ⟨"host", "alice", 7⟩

def trackerEx : TrackerState :=
  ⟨[("r1", ⟨"r1", "list-files", some "p1", false, none⟩),
    ("r2", ⟨"r2", "send-mail", none, false, none⟩)]⟩


/-! ## Codec lemmas -/

theorem decNat_encNat (n : Nat) : ∀ rest, decNat (encNat n ++ rest) = some (n, rest) := by
  induction n using Nat.strong_induction_on with
  | _ n ih =>
    intro rest
    by_cases h : n = 0
    · subst h
      simp [encNat, decNat]
    · rw [encNat, dif_neg h]
      have hd : n % 255 < 255 := Nat.mod_lt _ (by norm_num)
      have hrec := ih (n / 255) (Nat.div_lt_self (Nat.pos_of_ne_zero h) (by norm_num)) rest
      simp only [List.cons_append, decNat, if_neg (by omega : ¬ n % 255 = 255),
        List.append_eq, hrec]
      rw [Nat.mod_add_div]

theorem encNat_lt (n : Nat) : ∀ b ∈ encNat n, b < 256 := by
  induction n using Nat.strong_induction_on with
  | _ n ih =>
    intro b hb
    by_cases h : n = 0
    · subst h; rw [encNat] at hb; simp at hb; omega
    · rw [encNat, dif_neg h] at hb
      rcases List.mem_cons.mp hb with h1 | h2
      · have := Nat.mod_lt n (show 0 < 255 by norm_num)
        omega
      · exact ih (n / 255) (Nat.div_lt_self (Nat.pos_of_ne_zero h) (by norm_num)) b h2

theorem decInt_encInt (i : Int) (rest : List Nat) :
    decInt (encInt i ++ rest) = some (i, rest) := by
  by_cases h : i < 0
  · simp only [encInt, if_pos h, List.cons_append, decInt, decNat_encNat]
    simp only [if_true, Option.some.injEq, Prod.mk.injEq]
    exact ⟨by omega, trivial⟩
  · simp only [encInt, if_neg h, List.cons_append, decInt, decNat_encNat]
    rw [if_neg (by norm_num : ¬ (0 : Nat) = 1), if_pos trivial]
    simp only [Option.some.injEq, Prod.mk.injEq]
    exact ⟨by omega, trivial⟩

theorem encInt_lt (i : Int) : ∀ b ∈ encInt i, b < 256 := by
  intro b hb
  simp only [encInt] at hb
  rcases List.mem_cons.mp hb with h1 | h2
  · split at h1 <;> omega
  · exact encNat_lt _ b h2

theorem charOfNat?_toNat (c : Char) : charOfNat? c.toNat = some c := by
  have hv : c.toNat.isValidChar := c.valid
  unfold charOfNat?
  rw [if_pos hv, Char.ofNat_toNat]

theorem decChar_encChar (c : Char) (rest : List Nat) :
    decChar (encChar c ++ rest) = some (c, rest) := by
  simp [decChar, encChar, decNat_encNat, charOfNat?_toNat]

theorem decCharList_encCharList (cs : List Char) :
    ∀ rest, decCharList cs.length (encCharList cs ++ rest) = some (cs, rest) := by
  induction cs with
  | nil => intro rest; simp [encCharList, decCharList]
  | cons c cs ih =>
    intro rest
    simp only [List.length_cons, encCharList, List.append_assoc, decCharList,
      decChar_encChar, ih]

theorem encCharList_lt (cs : List Char) : ∀ b ∈ encCharList cs, b < 256 := by
  induction cs with
  | nil => simp [encCharList]
  | cons c cs ih =>
    intro b hb
    simp only [encCharList] at hb
    rcases List.mem_append.mp hb with h1 | h2
    · exact encNat_lt _ b h1
    · exact ih b h2

theorem decString_encString (s : String) (rest : List Nat) :
    decString (encString s ++ rest) = some (s, rest) := by
  obtain ⟨cs⟩ := s
  simp only [encString, decString, List.append_assoc, decNat_encNat]
  have hl : (String.mk cs).length = cs.length := rfl
  have ht : (String.mk cs).toList = cs := rfl
  rw [hl, ht, decCharList_encCharList]

theorem encString_lt (s : String) : ∀ b ∈ encString s, b < 256 := by
  intro b hb
  simp only [encString] at hb
  rcases List.mem_append.mp hb with h1 | h2
  · exact encNat_lt _ b h1
  · exact encCharList_lt _ b h2

theorem decOpt_encOpt {α : Type} (enc : α → List Nat)
    (dec : List Nat → Option (α × List Nat))
    (hround : ∀ a rest, dec (enc a ++ rest) = some (a, rest)) :
    ∀ (o : Option α) (rest : List Nat),
      decOpt dec (encOpt enc o ++ rest) = some (o, rest) := by
  intro o rest
  cases o with
  | none => simp [encOpt, decOpt]
  | some a => simp [encOpt, decOpt, hround]

theorem encOpt_lt {α : Type} (enc : α → List Nat)
    (hlt : ∀ a, ∀ b ∈ enc a, b < 256) :
    ∀ (o : Option α), ∀ b ∈ encOpt enc o, b < 256 := by
  intro o b hb
  cases o with
  | none => simp [encOpt] at hb; omega
  | some a =>
    simp only [encOpt] at hb
    rcases List.mem_cons.mp hb with h1 | h2
    · omega
    · exact hlt a b h2

theorem deserializeTokens_serializeTokens (t : OAuth2Tokens) :
    deserializeTokens (serializeTokens t) = some t := by
  obtain ⟨a, rf, ex, sc, tt⟩ := t
  have h1 := decOpt_encOpt encString decString decString_encString
  have h2 := decOpt_encOpt encInt decInt decInt_encInt
  have h5 : decOpt decString (encOpt encString tt) = some (tt, []) := by
    have := h1 tt []
    simpa using this
  simp [deserializeTokens, serializeTokens, h1, h2, h5]

theorem serializeTokens_lt (t : OAuth2Tokens) : ∀ b ∈ serializeTokens t, b < 256 := by
  intro b hb
  simp only [serializeTokens, List.mem_append] at hb
  rcases hb with ((((h | h) | h) | h) | h)
  · exact encOpt_lt encString encString_lt _ b h
  · exact encOpt_lt encString encString_lt _ b h
  · exact encOpt_lt encInt encInt_lt _ b h
  · exact encOpt_lt encString encString_lt _ b h
  · exact encOpt_lt encString encString_lt _ b h

/-! ## Hex lemmas -/

theorem hexDigitChar_toNat :
    ∀ d, d < 16 → (hexDigitChar d).toNat = if d < 10 then d + 48 else d + 87 := by decide

theorem hexDigitVal_hexDigitChar (n : Nat) (h : n < 16) :
    hexDigitVal (hexDigitChar n) = some n := by
  unfold hexDigitVal
  rw [hexDigitChar_toNat n h]
  by_cases h10 : n < 10
  · rw [if_pos h10, if_pos (by omega)]
    simp
  · rw [if_neg h10, if_neg (by omega), if_pos (by omega)]
    simp

theorem hexToBytes_bytesToHex_append (bs : List Nat) (rest : List Char)
    (hlt : ∀ b ∈ bs, b < 256) :
    hexToBytes (bytesToHex bs ++ rest) = bs ++ hexToBytes rest := by
  induction bs with
  | nil => rfl
  | cons b bs ih =>
    have hb : b < 256 := hlt b (List.mem_cons_self _ _)
    have h1 : b / 16 < 16 := by omega
    have h2 : b % 16 < 16 := by omega
    simp only [bytesToHex, List.cons_append, hexToBytes, List.append_eq,
      hexDigitVal_hexDigitChar _ h1, hexDigitVal_hexDigitChar _ h2,
      ih (fun x hx => hlt x (List.mem_cons_of_mem _ hx)), List.cons.injEq]
    exact ⟨by omega, trivial⟩

theorem hexToBytes_bytesToHex (bs : List Nat) (hlt : ∀ b ∈ bs, b < 256) :
    hexToBytes (bytesToHex bs) = bs := by
  have h := hexToBytes_bytesToHex_append bs [] hlt
  simpa [show hexToBytes [] = ([] : List Nat) from rfl] using h

/-! ## Cipher and key lemmas -/

theorem keystream_lt (key iv : List Nat) (i : Nat) : keystream key iv i < 256 :=
  Nat.mod_lt _ (by norm_num)

theorem xorStream_xorStream (key iv : List Nat) :
    ∀ (bs : List Nat) (i : Nat), xorStream key iv i (xorStream key iv i bs) = bs := by
  intro bs
  induction bs with
  | nil => intro i; rfl
  | cons b bs ih =>
    intro i
    simp only [xorStream, ih]
    rw [Nat.xor_assoc, Nat.xor_self, Nat.xor_zero]

theorem xorStream_lt (key iv : List Nat) :
    ∀ (bs : List Nat) (i : Nat), (∀ b ∈ bs, b < 256) →
      ∀ b ∈ xorStream key iv i bs, b < 256 := by
  intro bs
  induction bs with
  | nil => intro i _ b hb; simp [xorStream] at hb
  | cons x bs ih =>
    intro i hlt b hb
    simp only [xorStream] at hb
    rcases List.mem_cons.mp hb with h1 | h2
    · have hx : x < 2 ^ 8 := by
        have := hlt x (List.mem_cons_self _ _)
        norm_num
        omega
      have hk : keystream key iv i < 2 ^ 8 := by
        have := keystream_lt key iv i
        norm_num
        omega
      have := Nat.xor_lt_two_pow hx hk
      norm_num at this
      omega
    · exact ih (i + 1) (fun y hy => hlt y (List.mem_cons_of_mem _ hy)) b h2

theorem getDerivedKey_lt (env : SysEnv) : ∀ b ∈ getDerivedKey env, b < 256 := by
  intro b hb
  simp only [getDerivedKey, pbkdf2, List.mem_map] at hb
  obtain ⟨i, _, hi⟩ := hb
  subst hi
  exact Nat.mod_lt _ (by norm_num)

theorem macTag_inj (key iv ct1 ct2 : List Nat)
    (h : macTag key iv ct1 = macTag key iv ct2) : ct1 = ct2 := by
  simp only [macTag, List.append_assoc] at h
  exact List.append_cancel_left (List.append_cancel_left h)

theorem macTag_lt (key iv ct : List Nat) (hk : ∀ b ∈ key, b < 256)
    (hi : ∀ b ∈ iv, b < 256) (hc : ∀ b ∈ ct, b < 256) :
    ∀ b ∈ macTag key iv ct, b < 256 := by
  intro b hb
  simp only [macTag, List.mem_append] at hb
  rcases hb with (h | h) | h
  · exact hk b h
  · exact hi b h
  · exact hc b h

/-! ## Envelope round trip and tamper detection (claim C4 core) -/

theorem ct_lt (env : SysEnv) (iv : List Nat) (t : OAuth2Tokens) :
    ∀ b ∈ xorStream (getDerivedKey env) iv 0 (serializeTokens t), b < 256 :=
  xorStream_lt _ _ _ _ (serializeTokens_lt t)

theorem encryptTokenDataFile_eq (env : SysEnv) (iv : List Nat) (t : OAuth2Tokens) :
    encryptTokenDataFile env iv t =
      ⟨"file", bytesToHex iv,
        bytesToHex (macTag (getDerivedKey env) iv
          (xorStream (getDerivedKey env) iv 0 (serializeTokens t))),
        bytesToHex (xorStream (getDerivedKey env) iv 0 (serializeTokens t))⟩ := rfl

theorem decrypt_encrypt (env : SysEnv) (iv : List Nat) (t : OAuth2Tokens)
    (hiv : ∀ b ∈ iv, b < 256) :
    decryptTokenDataFile env (encryptTokenDataFile env iv t) = some t := by
  have hk := getDerivedKey_lt env
  have hct := ct_lt env iv t
  have hmac := macTag_lt (getDerivedKey env) iv _ hk hiv hct
  rw [encryptTokenDataFile_eq]
  simp only [decryptTokenDataFile]
  rw [hexToBytes_bytesToHex iv hiv, hexToBytes_bytesToHex _ hmac,
    hexToBytes_bytesToHex _ hct]
  rw [if_pos rfl, xorStream_xorStream, deserializeTokens_serializeTokens]

theorem decrypt_tampered_tag (env : SysEnv) (iv : List Nat) (t : OAuth2Tokens)
    (hiv : ∀ b ∈ iv, b < 256) (tag2 : List Char)
    (hne : hexToBytes tag2 ≠
      hexToBytes (encryptTokenDataFile env iv t).authTag) :
    decryptTokenDataFile env
      ⟨"file", (encryptTokenDataFile env iv t).iv, tag2,
        (encryptTokenDataFile env iv t).data⟩ = none := by
  have hk := getDerivedKey_lt env
  have hct := ct_lt env iv t
  have hmac := macTag_lt (getDerivedKey env) iv _ hk hiv hct
  rw [encryptTokenDataFile_eq] at hne
  rw [encryptTokenDataFile_eq]
  simp only [decryptTokenDataFile]
  rw [hexToBytes_bytesToHex iv hiv, hexToBytes_bytesToHex _ hct]
  rw [hexToBytes_bytesToHex _ hmac] at hne
  exact if_neg hne

theorem decrypt_tampered_data (env : SysEnv) (iv : List Nat) (t : OAuth2Tokens)
    (hiv : ∀ b ∈ iv, b < 256) (data2 : List Char)
    (hne : hexToBytes data2 ≠
      hexToBytes (encryptTokenDataFile env iv t).data) :
    decryptTokenDataFile env
      ⟨"file", (encryptTokenDataFile env iv t).iv,
        (encryptTokenDataFile env iv t).authTag, data2⟩ = none := by
  have hk := getDerivedKey_lt env
  have hct := ct_lt env iv t
  have hmac := macTag_lt (getDerivedKey env) iv _ hk hiv hct
  rw [encryptTokenDataFile_eq] at hne
  rw [encryptTokenDataFile_eq]
  simp only [decryptTokenDataFile]
  rw [hexToBytes_bytesToHex iv hiv, hexToBytes_bytesToHex _ hmac]
  rw [hexToBytes_bytesToHex _ hct] at hne
  rw [if_neg]
  exact fun h => hne (macTag_inj _ _ _ _ h).symm

theorem decrypt_decode_equivalent (env : SysEnv) (iv : List Nat)
    (t : OAuth2Tokens) (hiv : ∀ b ∈ iv, b < 256) (tag2 data2 : List Char)
    (htag : hexToBytes tag2 =
      hexToBytes (encryptTokenDataFile env iv t).authTag)
    (hdata : hexToBytes data2 =
      hexToBytes (encryptTokenDataFile env iv t).data) :
    decryptTokenDataFile env
      ⟨"file", (encryptTokenDataFile env iv t).iv, tag2, data2⟩ = some t := by
  have hk := getDerivedKey_lt env
  have hct := ct_lt env iv t
  have hmac := macTag_lt (getDerivedKey env) iv _ hk hiv hct
  rw [encryptTokenDataFile_eq] at htag hdata
  rw [encryptTokenDataFile_eq]
  simp only [decryptTokenDataFile]
  rw [hexToBytes_bytesToHex iv hiv, htag, hdata, hexToBytes_bytesToHex _ hmac,
    hexToBytes_bytesToHex _ hct]
  rw [if_pos rfl, xorStream_xorStream, deserializeTokens_serializeTokens]

/-! ## Expiry and getValidAccessToken lemmas -/

theorem isTokenExpired_some_false (now : Int) (t : OAuth2Tokens) (e : Int)
    (he : t.expiry_date = some e) (hgt : now + buffer < e) :
    isTokenExpired now t = false := by
  simp only [isTokenExpired, he, Option.getD_some]
  rw [decide_eq_false_iff_not]
  omega

theorem isTokenExpired_some_true (now : Int) (t : OAuth2Tokens) (e : Int)
    (he : t.expiry_date = some e) (hle : e ≤ now + buffer) :
    isTokenExpired now t = true := by
  simp only [isTokenExpired, he, Option.getD_some]
  rw [decide_eq_true_iff]
  omega

theorem isTokenExpired_none (now : Int) (t : OAuth2Tokens)
    (he : t.expiry_date = none) (hnow : 0 ≤ now) :
    isTokenExpired now t = true := by
  simp only [isTokenExpired, he, Option.getD_none]
  rw [decide_eq_true_iff]
  simp only [buffer]
  omega

theorem truthy_some_of_ne (s : String) (h : s ≠ "") : truthy (some s) = true := by
  simp only [truthy, Option.getD_some, Bool.not_eq_true']
  cases hie : s.isEmpty with
  | false => rfl
  | true => exact absurd ((String.isEmpty_iff s).mp hie) h

theorem truthy_none_false : truthy none = false := by decide

theorem gvat_fresh (now : Int) (t : OAuth2Tokens) (s : String)
    (auth : OAuth2Tokens) (ro : Except Unit OAuth2Tokens)
    (hexp : isTokenExpired now t = false) (ha : t.access_token = some s)
    (hs : s ≠ "") :
    getValidAccessToken now (some t) auth ro = ⟨.ok s, 0, false, some t⟩ := by
  have hts : truthy (some s) = true := truthy_some_of_ne s hs
  simp [getValidAccessToken, getValidAccessTokenStored, hexp, ha, hts]

theorem gvat_expired_refresh_truthy (now : Int) (t : OAuth2Tokens)
    (auth : OAuth2Tokens) (ro : Except Unit OAuth2Tokens)
    (hexp : isTokenExpired now t = true) (ht : truthy t.refresh_token = true) :
    (getValidAccessToken now (some t) auth ro).refreshCalls = 1 := by
  cases ro with
  | error u => simp [getValidAccessToken, getValidAccessTokenStored, hexp, ht]
  | ok creds =>
    cases hc : truthy creds.access_token <;>
      simp [getValidAccessToken, getValidAccessTokenStored, hexp, ht, hc]

theorem gvat_expired_refresh (now : Int) (t : OAuth2Tokens) (rt : String)
    (auth : OAuth2Tokens) (ro : Except Unit OAuth2Tokens)
    (hexp : isTokenExpired now t = true) (hr : t.refresh_token = some rt)
    (hrt : rt ≠ "") :
    (getValidAccessToken now (some t) auth ro).refreshCalls = 1 := by
  apply gvat_expired_refresh_truthy now t auth ro hexp
  rw [hr]
  exact truthy_some_of_ne rt hrt

theorem gvat_expired_no_rt (now : Int) (t : OAuth2Tokens)
    (auth : OAuth2Tokens) (ro : Except Unit OAuth2Tokens)
    (hexp : isTokenExpired now t = true) (hr : truthy t.refresh_token = false) :
    getValidAccessToken now (some t) auth ro =
      ⟨.error .noRefreshTokenAvailable, 0, false, some t⟩ := by
  simp [getValidAccessToken, getValidAccessTokenStored, hexp, hr]

theorem gvat_refresh_rejected (now : Int) (t : OAuth2Tokens) (rt : String)
    (auth : OAuth2Tokens)
    (hexp : isTokenExpired now t = true) (hr : t.refresh_token = some rt)
    (hrt : rt ≠ "") :
    getValidAccessToken now (some t) auth (.error ()) =
      ⟨.error .refreshRequestRejected, 1, false, some t⟩ := by
  have ht : truthy t.refresh_token = true := by
    rw [hr]
    exact truthy_some_of_ne rt hrt
  simp [getValidAccessToken, getValidAccessTokenStored, hexp, ht]

/-! ## Race lemmas (C1) -/

theorem race_two_callers (now : Int) (t creds : OAuth2Tokens) (rt s : String)
    (hexp : isTokenExpired now t = true) (hr : t.refresh_token = some rt)
    (hrt : rt ≠ "") (hc : creds.access_token = some s) (hs : s ≠ "") :
    runRace now (.ok creds) [0, 1, 0, 1] (initRace (some t) 2) =
      ⟨some creds, 2,
        [⟨.finished, some t, some (.ok s)⟩, ⟨.finished, some t, some (.ok s)⟩]⟩ := by
  have ht : truthy t.refresh_token = true := by
    rw [hr]
    exact truthy_some_of_ne rt hrt
  have hts : truthy (some s) = true := truthy_some_of_ne s hs
  simp [runRace, initRace, raceStep, raceStepCaller, List.foldl, hexp, ht, hc, hts]

/-! ## Callback server lemmas (C6) -/

theorem cb_foldl_noise (pre : List CbEvent)
    (h : ∀ e ∈ pre, cbNoise e = true) :
    List.foldl cbStep ⟨false, none⟩ pre = ⟨false, none⟩ := by
  induction pre with
  | nil => rfl
  | cons e pre ih =>
    have he := h e (List.mem_cons_self _ _)
    have hstep : cbStep ⟨false, none⟩ e = ⟨false, none⟩ := by
      cases e with
      | request code err =>
        simp only [cbNoise, Bool.and_eq_true, Bool.not_eq_true'] at he
        simp [cbStep, he.1, he.2]
      | timerFired => simp [cbNoise] at he
    simp only [List.foldl_cons, hstep]
    exact ih (fun e2 h2 => h e2 (List.mem_cons_of_mem _ h2))

theorem cb_foldl_absorb (r : Except CbError String) (post : List CbEvent) :
    List.foldl cbStep ⟨true, some r⟩ post = ⟨true, some r⟩ := by
  induction post with
  | nil => rfl
  | cons e post ih =>
    simp only [List.foldl_cons]
    have hstep : cbStep ⟨true, some r⟩ e = ⟨true, some r⟩ := by
      cases e with
      | request code err => simp [cbStep]
      | timerFired => simp [cbStep]
    rw [hstep, ih]

/-! ## Request tracker lemmas (C7) -/

theorem cancelMark_fst (id : String) (reason : Option String)
    (p : String × RequestContext) : (cancelMark id reason p).1 = p.1 := by
  unfold cancelMark
  split_ifs <;> rfl

theorem find?_map_cancelMark (l : List (String × RequestContext))
    (id : String) (reason : Option String) :
    (l.map (cancelMark id reason)).find? (fun p => p.1 == id) =
      (l.find? (fun p => p.1 == id)).map (cancelMark id reason) := by
  induction l with
  | nil => rfl
  | cons p l ih =>
    simp only [List.map_cons, List.find?_cons]
    rw [cancelMark_fst]
    cases hb : (p.1 == id) with
    | true => rfl
    | false => exact ih

theorem find?_map_cancelMark_ne (l : List (String × RequestContext))
    (id : String) (reason : Option String) (id2 : String) (hne : id2 ≠ id) :
    (l.map (cancelMark id reason)).find? (fun p => p.1 == id2) =
      l.find? (fun p => p.1 == id2) := by
  induction l with
  | nil => rfl
  | cons p l ih =>
    simp only [List.map_cons, List.find?_cons]
    rw [cancelMark_fst]
    cases hb : (p.1 == id2) with
    | true =>
      simp only []
      have hp : p.1 = id2 := by simpa using hb
      have hni : ¬(p.1 == id) = true := by
        simp only [beq_iff_eq]
        rw [hp]
        exact hne
      rw [show cancelMark id reason p = p from by unfold cancelMark; rw [if_neg hni]]
    | false =>
      simp only []
      exact ih

theorem bytesToHex_ne_nil (bs : List Nat) (h : bs ≠ []) : bytesToHex bs ≠ [] := by
  cases bs with
  | nil => exact absurd rfl h
  | cons b bs => simp [bytesToHex]

theorem macTag_ne_nil (key iv ct : List Nat) (h : key ≠ []) :
    macTag key iv ct ≠ [] := by
  cases key with
  | nil => exact absurd rfl h
  | cons k ks => simp [macTag]

theorem getDerivedKey_ne_nil (env : SysEnv) : getDerivedKey env ≠ [] := by
  have hl : (getDerivedKey env).length = 32 := by simp [getDerivedKey, pbkdf2]
  intro h
  rw [h] at hl
  simp at hl

theorem serializeTokens_ne_nil (t : OAuth2Tokens) : serializeTokens t ≠ [] := by
  simp only [serializeTokens]
  cases t.access_token <;> simp [encOpt]

theorem xorStream_ne_nil (key iv : List Nat) (i : Nat) (bs : List Nat)
    (h : bs ≠ []) : xorStream key iv i bs ≠ [] := by
  cases bs with
  | nil => exact absurd rfl h
  | cons b bs => simp [xorStream]

/-! ## Claim theorems -/

/-- C1, counterexample: with a stored credential whose expiry is within the
5-minute buffer and that has a refresh token, the schedule in which two
concurrent getValidAccessToken callers both read the stored record before
either refreshes produces two outbound refresh calls, not exactly one:
the code has no single-flight guard. -/
theorem C1_counterexample :
    (runRace 600000 (.ok refreshedTokens) [0, 1, 0, 1]
        (initRace (some expiredTokens) 2)).refreshCalls = 2 ∧
    (runRace 600000 (.ok refreshedTokens) [0, 1, 0, 1]
        (initRace (some expiredTokens) 2)).refreshCalls ≠ 1 := by
  constructor
  · rfl
  · intro h
    rw [show (runRace 600000 (.ok refreshedTokens) [0, 1, 0, 1]
        (initRace (some expiredTokens) 2)).refreshCalls = 2 from rfl] at h
    exact absurd h (by norm_num)

/-- C1, amended: getValidAccessToken has no single-flight guard; in the
interleaving where both concurrent callers read the expired stored
credential (holding a truthy, non-empty refresh token) before either
refreshes, each caller triggers its own outbound refresh (two refreshes for
two callers).  Each caller returns the token its own refresh produced (with
a deterministic authorization server both get the same new token), and the
stored record ends as the last refresh result, a well-formed credential
(last write wins, no torn record). -/
theorem C1_no_single_flight (now : Int) (t creds : OAuth2Tokens) (rt s : String)
    (hexp : isTokenExpired now t = true) (hr : t.refresh_token = some rt)
    (hrt : rt ≠ "") (hc : creds.access_token = some s) (hs : s ≠ "") :
    runRace now (.ok creds) [0, 1, 0, 1] (initRace (some t) 2) =
      ⟨some creds, 2,
        [⟨.finished, some t, some (.ok s)⟩, ⟨.finished, some t, some (.ok s)⟩]⟩ :=
  race_two_callers now t creds rt s hexp hr hrt hc hs

/-- C1, witness: the amended theorem applied to the concrete expired
credential and refresh outcome. -/
theorem C1_no_single_flight_witness :
    isTokenExpired 600000 expiredTokens = true ∧
    expiredTokens.refresh_token = some "refresh-token" ∧
    ("refresh-token" : String) ≠ "" ∧
    refreshedTokens.access_token = some "new-token" ∧
    ("new-token" : String) ≠ "" ∧
    runRace 600000 (.ok refreshedTokens) [0, 1, 0, 1]
        (initRace (some expiredTokens) 2) =
      ⟨some refreshedTokens, 2,
        [⟨.finished, some expiredTokens, some (.ok "new-token")⟩,
         ⟨.finished, some expiredTokens, some (.ok "new-token")⟩]⟩ :=
  ⟨by decide, rfl, by decide, rfl, by decide,
    C1_no_single_flight 600000 expiredTokens refreshedTokens "refresh-token"
      "new-token" (by decide) rfl (by decide) rfl (by decide)⟩

/-- C2: a stored credential whose expiry_date is more than five minutes
after now is returned unchanged (its truthy, non-empty access token) with
no refresh and no interactive flow; one within the buffer (inclusive)
triggers a refresh before any return when a truthy refresh token is
present, and otherwise the call fails without returning the stored token. -/
theorem C2_expiry_buffer (now : Int) (t : OAuth2Tokens)
    (auth : OAuth2Tokens) (ro : Except Unit OAuth2Tokens) (e : Int)
    (he : t.expiry_date = some e) :
    (∀ s, now + buffer < e → t.access_token = some s → s ≠ "" →
        getValidAccessToken now (some t) auth ro = ⟨.ok s, 0, false, some t⟩)
    ∧ (∀ rt, e ≤ now + buffer → t.refresh_token = some rt → rt ≠ "" →
        (getValidAccessToken now (some t) auth ro).refreshCalls = 1)
    ∧ (e ≤ now + buffer →
        (getValidAccessToken now (some t) auth ro).refreshCalls = 1 ∨
          (getValidAccessToken now (some t) auth ro).result =
            .error .noRefreshTokenAvailable) := by
  refine ⟨?_, ?_, ?_⟩
  · intro s hgt ha hs
    exact gvat_fresh now t s auth ro (isTokenExpired_some_false now t e he hgt) ha hs
  · intro rt hle hr hrt
    exact gvat_expired_refresh now t rt auth ro
      (isTokenExpired_some_true now t e he hle) hr hrt
  · intro hle
    cases hrt : truthy t.refresh_token with
    | false =>
      right
      rw [gvat_expired_no_rt now t auth ro (isTokenExpired_some_true now t e he hle) hrt]
    | true =>
      left
      exact gvat_expired_refresh_truthy now t auth ro
        (isTokenExpired_some_true now t e he hle) hrt

/-- C2, witness: the theorem applied to a fresh credential (expiry one
million seconds after epoch, now = 0) and to the concrete expired one. -/
theorem C2_expiry_buffer_witness :
    freshTokens.expiry_date = some 1000000000 ∧
    (0 : Int) + buffer < 1000000000 ∧
    freshTokens.access_token = some "stored-token" ∧
    ("stored-token" : String) ≠ "" ∧
    getValidAccessToken 0 (some freshTokens) freshTokens (.ok refreshedTokens) =
      ⟨.ok "stored-token", 0, false, some freshTokens⟩ ∧
    expiredTokens.expiry_date = some 0 ∧
    (0 : Int) ≤ 600000 + buffer ∧
    (getValidAccessToken 600000 (some expiredTokens) freshTokens
        (.ok refreshedTokens)).refreshCalls = 1 :=
  ⟨rfl, by decide, rfl, by decide,
    (C2_expiry_buffer 0 freshTokens freshTokens (.ok refreshedTokens)
      1000000000 rfl).1 "stored-token" (by decide) rfl (by decide),
    rfl, by decide,
    (C2_expiry_buffer 600000 expiredTokens freshTokens (.ok refreshedTokens)
      0 rfl).2.1 "refresh-token" (by decide) rfl (by decide)⟩

/-- C3, counterexample: when a record exists but decryption fails via both
the keychain lookup and the file-based fallback, getTokens returns ok none
(the catch at token-manager.ts line 87 logs and returns null) instead of
failing with a CorruptCredentialStore error as the claim states. -/
theorem C3_counterexample :
    getTokens true .keychainRef (.error ()) (.error ()) = .ok none ∧
    getTokens true .keychainRef (.error ()) (.error ()) ≠ .error () := by
  constructor
  · rfl
  · intro h
    cases h

/-- C3, amended: getTokens returns None when no record exists (not an
error), and when a record exists but decryption fails via both the
secure-enclave lookup and the file-based fallback it also returns None
rather than surfacing a distinct error; in fact getTokens never fails. -/
theorem C3_load_never_fails :
    (∀ k ko fo, getTokens false k ko fo = .ok none)
    ∧ (∀ k, getTokens true k (.error ()) (.error ()) = .ok none)
    ∧ (∀ ex k ko fo, ∃ r, getTokens ex k ko fo = .ok r) := by
  refine ⟨fun k ko fo => rfl, ?_, ?_⟩
  · intro k
    cases k <;> rfl
  · intro ex k ko fo
    cases ex with
    | false => exact ⟨none, rfl⟩
    | true =>
      simp only [getTokens, if_true]
      cases h : decryptTokenData k ko fo with
      | ok t => exact ⟨some t, rfl⟩
      | error u => exact ⟨none, rfl⟩

theorem append_two_ne_self {α : Type} (l : List α) (a b : α) : l ++ [a, b] ≠ l := by
  intro h
  have hlen := congrArg List.length h
  rw [List.length_append] at hlen
  simp at hlen

/-- C4, counterexample: node hex decoding (Buffer.from(str, hex), used by
decipher.update and setAuthTag) is case-insensitive and silently truncates
at the first invalid pair, so an envelope whose auth tag field has been
altered by appending a non-hex suffix decodes to the very same bytes and
decrypts successfully, where the claim asserts that decryption of any
altered auth tag fails. -/
theorem C4_counterexample :
    (encryptTokenDataFile envEx [1, 2, 3] freshTokens).authTag ++ ['z', 'z'] ≠
      (encryptTokenDataFile envEx [1, 2, 3] freshTokens).authTag ∧
    decryptTokenDataFile envEx ⟨"file",
      (encryptTokenDataFile envEx [1, 2, 3] freshTokens).iv,
      (encryptTokenDataFile envEx [1, 2, 3] freshTokens).authTag ++ ['z', 'z'],
      (encryptTokenDataFile envEx [1, 2, 3] freshTokens).data⟩ =
        some freshTokens := by
  have hiv : ∀ b ∈ [1, 2, 3], b < 256 := by decide
  have hmac := macTag_lt (getDerivedKey envEx) [1, 2, 3] _ (getDerivedKey_lt envEx)
    hiv (ct_lt envEx [1, 2, 3] freshTokens)
  constructor
  · exact append_two_ne_self _ 'z' 'z'
  · apply decrypt_decode_equivalent envEx [1, 2, 3] freshTokens hiv _ _ _ rfl
    rw [encryptTokenDataFile_eq]
    rw [hexToBytes_bytesToHex_append _ _ hmac]
    rw [show hexToBytes ['z', 'z'] = [] from by decide, List.append_nil]
    rw [hexToBytes_bytesToHex _ hmac]

/-- C4, amended: encrypting a credential through the file-based fallback
and decrypting the envelope with the same derived key yields the original
credential; decryption fails (none) for every envelope whose auth tag or
ciphertext field decodes to different bytes than the genuine one; and an
altered envelope whose fields still decode to the genuine bytes (hex case
flips, trailing garbage after the first invalid pair) decrypts to the
original, unaltered credential — never to a different one.  AES-256-GCM is
idealized as an authenticated stream cipher whose tag verification admits
no collisions, and hex fields follow node semantics (case-insensitive,
truncating at the first invalid pair). -/
theorem C4_roundtrip_tamper :
    (∀ env iv t, (∀ b ∈ iv, b < 256) →
        decryptTokenDataFile env (encryptTokenDataFile env iv t) = some t)
    ∧ (∀ env iv t tag2, (∀ b ∈ iv, b < 256) →
        hexToBytes tag2 ≠ hexToBytes (encryptTokenDataFile env iv t).authTag →
        decryptTokenDataFile env ⟨"file", (encryptTokenDataFile env iv t).iv,
          tag2, (encryptTokenDataFile env iv t).data⟩ = none)
    ∧ (∀ env iv t data2, (∀ b ∈ iv, b < 256) →
        hexToBytes data2 ≠ hexToBytes (encryptTokenDataFile env iv t).data →
        decryptTokenDataFile env ⟨"file", (encryptTokenDataFile env iv t).iv,
          (encryptTokenDataFile env iv t).authTag, data2⟩ = none)
    ∧ (∀ env iv t tag2 data2, (∀ b ∈ iv, b < 256) →
        hexToBytes tag2 = hexToBytes (encryptTokenDataFile env iv t).authTag →
        hexToBytes data2 = hexToBytes (encryptTokenDataFile env iv t).data →
        decryptTokenDataFile env ⟨"file", (encryptTokenDataFile env iv t).iv,
          tag2, data2⟩ = some t) :=
  ⟨fun env iv t hiv => decrypt_encrypt env iv t hiv,
   fun env iv t tag2 hiv hne => decrypt_tampered_tag env iv t hiv tag2 hne,
   fun env iv t data2 hiv hne => decrypt_tampered_data env iv t hiv data2 hne,
   fun env iv t tag2 data2 hiv htag hdata =>
     decrypt_decode_equivalent env iv t hiv tag2 data2 htag hdata⟩

/-- C4, witness: round trip, rejection of byte-changing tampering (the
empty tag and empty ciphertext decode to no bytes, unlike the genuine
non-empty fields), and acceptance of a decode-equivalent envelope, all at
a concrete environment, iv and credential. -/
theorem C4_roundtrip_tamper_witness :
    (∀ b ∈ [1, 2, 3], b < 256) ∧
    decryptTokenDataFile envEx (encryptTokenDataFile envEx [1, 2, 3] freshTokens) =
      some freshTokens ∧
    hexToBytes [] ≠
      hexToBytes (encryptTokenDataFile envEx [1, 2, 3] freshTokens).authTag ∧
    decryptTokenDataFile envEx ⟨"file",
      (encryptTokenDataFile envEx [1, 2, 3] freshTokens).iv, [],
      (encryptTokenDataFile envEx [1, 2, 3] freshTokens).data⟩ = none ∧
    hexToBytes [] ≠
      hexToBytes (encryptTokenDataFile envEx [1, 2, 3] freshTokens).data ∧
    decryptTokenDataFile envEx ⟨"file",
      (encryptTokenDataFile envEx [1, 2, 3] freshTokens).iv,
      (encryptTokenDataFile envEx [1, 2, 3] freshTokens).authTag, []⟩ = none ∧
    decryptTokenDataFile envEx ⟨"file",
      (encryptTokenDataFile envEx [1, 2, 3] freshTokens).iv,
      (encryptTokenDataFile envEx [1, 2, 3] freshTokens).authTag,
      (encryptTokenDataFile envEx [1, 2, 3] freshTokens).data⟩ =
        some freshTokens := by
  have h1 : ∀ b ∈ [1, 2, 3], b < 256 := by decide
  have hk := getDerivedKey_lt envEx
  have hct := ct_lt envEx [1, 2, 3] freshTokens
  have hmac := macTag_lt (getDerivedKey envEx) [1, 2, 3] _ hk h1 hct
  have h2 : hexToBytes [] ≠
      hexToBytes (encryptTokenDataFile envEx [1, 2, 3] freshTokens).authTag := by
    rw [encryptTokenDataFile_eq]
    rw [hexToBytes_bytesToHex _ hmac]
    exact fun h =>
      macTag_ne_nil _ _ _ (getDerivedKey_ne_nil envEx) h.symm
  have h3 : hexToBytes [] ≠
      hexToBytes (encryptTokenDataFile envEx [1, 2, 3] freshTokens).data := by
    rw [encryptTokenDataFile_eq]
    rw [hexToBytes_bytesToHex _ hct]
    exact fun h =>
      xorStream_ne_nil _ _ _ _ (serializeTokens_ne_nil freshTokens) h.symm
  exact ⟨h1, C4_roundtrip_tamper.1 envEx [1, 2, 3] freshTokens h1, h2,
    C4_roundtrip_tamper.2.1 envEx [1, 2, 3] freshTokens [] h1 h2, h3,
    C4_roundtrip_tamper.2.2.1 envEx [1, 2, 3] freshTokens [] h1 h3,
    C4_roundtrip_tamper.2.2.2 envEx [1, 2, 3] freshTokens _ _ h1 rfl rfl⟩

/-- C5: at expiry with no usable refresh token (absent or empty, since the
guard at line 69 is a JavaScript truthy check), getValidAccessToken fails
with the distinct no-refresh-token error without starting the interactive
flow and without any refresh attempt; when the authorization server rejects
the refresh of a truthy refresh token it fails with the distinct
refresh-rejected error after exactly one outbound call; the two errors are
distinct values, so a refresh failure is never reported as a missing
authorization. -/
theorem C5_distinct_errors :
    (∀ now t auth ro, isTokenExpired now t = true →
        truthy t.refresh_token = false →
        getValidAccessToken now (some t) auth ro =
          ⟨.error .noRefreshTokenAvailable, 0, false, some t⟩)
    ∧ (∀ now t rt auth, isTokenExpired now t = true →
        t.refresh_token = some rt → rt ≠ "" →
        getValidAccessToken now (some t) auth (.error ()) =
          ⟨.error .refreshRequestRejected, 1, false, some t⟩)
    ∧ TokenError.noRefreshTokenAvailable ≠ TokenError.refreshRequestRejected :=
  ⟨fun now t auth ro hexp hr => gvat_expired_no_rt now t auth ro hexp hr,
   fun now t rt auth hexp hr hrt => gvat_refresh_rejected now t rt auth hexp hr hrt,
   by decide⟩

/-- C5, witness: both failure modes at concrete expired credentials. -/
theorem C5_distinct_errors_witness :
    isTokenExpired 600000 expiredNoRefresh = true ∧
    truthy expiredNoRefresh.refresh_token = false ∧
    getValidAccessToken 600000 (some expiredNoRefresh) freshTokens (.ok refreshedTokens) =
      ⟨.error .noRefreshTokenAvailable, 0, false, some expiredNoRefresh⟩ ∧
    isTokenExpired 600000 expiredTokens = true ∧
    expiredTokens.refresh_token = some "refresh-token" ∧
    ("refresh-token" : String) ≠ "" ∧
    getValidAccessToken 600000 (some expiredTokens) freshTokens (.error ()) =
      ⟨.error .refreshRequestRejected, 1, false, some expiredTokens⟩ :=
  ⟨by decide, by decide,
    C5_distinct_errors.1 600000 expiredNoRefresh freshTokens (.ok refreshedTokens)
      (by decide) (by decide),
    by decide, rfl, by decide,
    C5_distinct_errors.2.1 600000 expiredTokens "refresh-token" freshTokens
      (by decide) rfl (by decide)⟩

/-- C6: over any trace of callback events, invalid requests (neither a
truthy code nor a truthy error query value, empty strings included)
neither settle nor close the listener; the first request carrying a
non-empty code closes the listener and resolves with exactly that code,
ignoring every later event; the first non-empty error callback closes and
rejects; and if the timeout fires before any settling callback the flow
aborts with the timeout error and the listener is closed. -/
theorem C6_callback_one_shot :
    (∀ evs, (∀ e ∈ evs, cbNoise e = true) →
        runCallbackServer evs = ⟨false, none⟩)
    ∧ (∀ pre c err post, (∀ e ∈ pre, cbNoise e = true) → c ≠ "" →
        runCallbackServer (pre ++ CbEvent.request (some c) err :: post) =
          ⟨true, some (.ok c)⟩)
    ∧ (∀ pre m post, (∀ e ∈ pre, cbNoise e = true) → m ≠ "" →
        runCallbackServer (pre ++ CbEvent.request none (some m) :: post) =
          ⟨true, some (.error (.authFailed m))⟩)
    ∧ (∀ pre post, (∀ e ∈ pre, cbNoise e = true) →
        runCallbackServer (pre ++ CbEvent.timerFired :: post) =
          ⟨true, some (.error .timeout)⟩) := by
  refine ⟨?_, ?_, ?_, ?_⟩
  · intro evs h
    exact cb_foldl_noise evs h
  · intro pre c err post h hc
    have hc2 : truthy (some c) = true := truthy_some_of_ne c hc
    have hstep : cbStep ⟨false, none⟩ (CbEvent.request (some c) err) =
        ⟨true, some (.ok c)⟩ := by
      simp [cbStep, hc2]
    simp only [runCallbackServer, List.foldl_append, List.foldl_cons,
      cb_foldl_noise pre h, hstep]
    exact cb_foldl_absorb _ post
  · intro pre m post h hm
    have hm2 : truthy (some m) = true := truthy_some_of_ne m hm
    have hstep : cbStep ⟨false, none⟩ (CbEvent.request none (some m)) =
        ⟨true, some (.error (.authFailed m))⟩ := by
      simp [cbStep, hm2, truthy_none_false]
    simp only [runCallbackServer, List.foldl_append, List.foldl_cons,
      cb_foldl_noise pre h, hstep]
    exact cb_foldl_absorb _ post
  · intro pre post h
    simp only [runCallbackServer, List.foldl_append, List.foldl_cons,
      cb_foldl_noise pre h]
    rw [show cbStep ⟨false, none⟩ CbEvent.timerFired =
      ⟨true, some (.error .timeout)⟩ from rfl]
    exact cb_foldl_absorb _ post

/-- C6, witness: a concrete trace with one empty-parameter invalid request
and one empty-string code request (both ignored), then a successful code
callback, then a late timer firing and a late request, resolving once with
the code; and a timeout-first trace aborting. -/
theorem C6_callback_one_shot_witness :
    (∀ e ∈ [CbEvent.request none none, CbEvent.request (some "") (some "")],
        cbNoise e = true) ∧
    ("auth-code" : String) ≠ "" ∧
    runCallbackServer [CbEvent.request none none,
        CbEvent.request (some "") (some ""),
        CbEvent.request (some "auth-code") none, CbEvent.timerFired,
        CbEvent.request (some "other") none] = ⟨true, some (.ok "auth-code")⟩ ∧
    runCallbackServer [CbEvent.timerFired, CbEvent.request (some "late") none] =
      ⟨true, some (.error .timeout)⟩ := by
  have h : ∀ e ∈ [CbEvent.request none none, CbEvent.request (some "") (some "")],
      cbNoise e = true := by decide
  refine ⟨h, by decide, ?_, ?_⟩
  · exact C6_callback_one_shot.2.1
      [CbEvent.request none none, CbEvent.request (some "") (some "")]
      "auth-code" none [CbEvent.timerFired, CbEvent.request (some "other") none]
      h (by decide)
  · exact C6_callback_one_shot.2.2.2 [] [CbEvent.request (some "late") none]
      (by decide)

/-- C7: cancelRequest on a registered request id triggers that context's
cancellation with the supplied reason and returns true, leaving every other
registered context unchanged; on an unknown or already cleaned-up id it
returns false, raises no error and leaves the state unchanged.
Modelled from the spec: the RequestTracker source file is not in the
snapshot, only its caller src/index.ts. -/
theorem C7_cancel_request (st : TrackerState) (id : String) (reason : Option String) :
    (lookupRequest st id = none → cancelRequest st id reason = (false, st))
    ∧ (∀ ctx, lookupRequest st id = some ctx →
        (cancelRequest st id reason).1 = true
        ∧ lookupRequest (cancelRequest st id reason).2 id =
            some ⟨ctx.requestId, ctx.toolName, ctx.progressToken, true, reason⟩
        ∧ ∀ id2, id2 ≠ id →
            lookupRequest (cancelRequest st id reason).2 id2 = lookupRequest st id2) := by
  constructor
  · intro h
    simp [cancelRequest, h]
  · intro ctx h
    have h1 : (cancelRequest st id reason).1 = true := by
      simp [cancelRequest, h]
    have h2 : (cancelRequest st id reason).2 = ⟨st.requests.map (cancelMark id reason)⟩ := by
      simp [cancelRequest, h]
    refine ⟨h1, ?_, ?_⟩
    · rw [h2]
      obtain ⟨p, hp, hp2⟩ := Option.map_eq_some'.mp h
      have hkey : (p.1 == id) = true := by
        have := List.find?_some hp
        simpa using this
      simp only [lookupRequest, find?_map_cancelMark, hp, Option.map_some']
      rw [show cancelMark id reason p =
        (p.1, ⟨p.2.requestId, p.2.toolName, p.2.progressToken, true, reason⟩) from by
          unfold cancelMark; rw [if_pos hkey]]
      rw [hp2]
    · intro id2 hne
      rw [h2]
      simp only [lookupRequest, find?_map_cancelMark_ne st.requests id reason id2 hne]

/-- C7, witness: cancelling a registered id r1 succeeds and marks only r1
cancelled with the given reason; cancelling the unknown id r9 returns
false and leaves the tracker unchanged. -/
theorem C7_cancel_request_witness :
    lookupRequest trackerEx "r9" = none ∧
    cancelRequest trackerEx "r9" (some "too late") = (false, trackerEx) ∧
    lookupRequest trackerEx "r1" = some ⟨"r1", "list-files", some "p1", false, none⟩ ∧
    (cancelRequest trackerEx "r1" (some "user cancelled")).1 = true ∧
    lookupRequest (cancelRequest trackerEx "r1" (some "user cancelled")).2 "r1" =
      some ⟨"r1", "list-files", some "p1", true, some "user cancelled"⟩ ∧
    lookupRequest (cancelRequest trackerEx "r1" (some "user cancelled")).2 "r2" =
      lookupRequest trackerEx "r2" := by
  have hl : lookupRequest trackerEx "r9" = none := by decide
  have hl1 : lookupRequest trackerEx "r1" =
      some ⟨"r1", "list-files", some "p1", false, none⟩ := by decide
  have h := (C7_cancel_request trackerEx "r1" (some "user cancelled")).2
    ⟨"r1", "list-files", some "p1", false, none⟩ hl1
  exact ⟨hl, (C7_cancel_request trackerEx "r9" (some "too late")).1 hl, hl1,
    h.1, h.2.1, h.2.2 "r2" (by decide)⟩

/-- C8: isAuthenticated is true exactly when the credential load succeeded
with a record whose access token is present and non-empty and whose expiry
is not within the five-minute buffer; it is false otherwise, including when
loading fails.  The model is a pure function of the loaded record: it
performs no refresh, no interactive flow and no store mutation. -/
theorem C8_is_authenticated (now : Int)
    (g : Except Unit (Option OAuth2Tokens)) :
    isAuthenticated now g = true ↔
      ∃ t s, g = .ok (some t) ∧ t.access_token = some s ∧ s ≠ "" ∧
        isTokenExpired now t = false := by
  cases g with
  | error u => simp [isAuthenticated]
  | ok o =>
    cases o with
    | none => simp [isAuthenticated]
    | some t =>
      cases ha : t.access_token with
      | none =>
        simp [isAuthenticated, ha, String.isEmpty]
      | some s =>
        simp only [isAuthenticated, ha, Option.getD_some, Bool.and_eq_true,
          Bool.not_eq_true', Except.ok.injEq, Option.some.injEq]
        constructor
        · rintro ⟨hs, hexp⟩
          refine ⟨t, s, rfl, ha, ?_, hexp⟩
          intro hempty
          subst hempty
          rw [show ("" : String).isEmpty = true from rfl] at hs
          cases hs
        · rintro ⟨t2, s2, ht2, ha2, hs2, hexp2⟩
          subst ht2
          rw [ha] at ha2
          obtain rfl : s = s2 := by simpa using ha2
          refine ⟨?_, hexp2⟩
          cases hie : s.isEmpty with
          | false => rfl
          | true => exact absurd ((String.isEmpty_iff s).mp hie) hs2

/-- C8, witness: the iff applied to a concrete loaded fresh credential. -/
theorem C8_is_authenticated_witness :
    isAuthenticated 0 (.ok (some freshTokens)) = true :=
  (C8_is_authenticated 0 (.ok (some freshTokens))).mpr
    ⟨freshTokens, "stored-token", rfl, rfl, by decide, by decide⟩

/-- C9: a stored credential with a null or absent expiry_date is treated as
already expired (the or-default coerces the missing expiry to 0), so the
expiry check reports expired for any non-negative clock, isAuthenticated
returns false, and getValidAccessToken takes the refresh path (one refresh
when a refresh token exists, the no-refresh-token failure otherwise)
instead of returning the stored access token. -/
theorem C9_missing_expiry (now : Int) (t : OAuth2Tokens)
    (auth : OAuth2Tokens) (ro : Except Unit OAuth2Tokens)
    (hnow : 0 ≤ now) (he : t.expiry_date = none) :
    isTokenExpired now t = true
    ∧ isAuthenticated now (.ok (some t)) = false
    ∧ ((getValidAccessToken now (some t) auth ro).refreshCalls = 1 ∨
        (getValidAccessToken now (some t) auth ro).result =
          .error .noRefreshTokenAvailable) := by
  have hexp := isTokenExpired_none now t he hnow
  refine ⟨hexp, ?_, ?_⟩
  · simp [isAuthenticated, hexp]
  · cases hr : truthy t.refresh_token with
    | false =>
      right
      rw [gvat_expired_no_rt now t auth ro hexp hr]
    | true =>
      left
      exact gvat_expired_refresh_truthy now t auth ro hexp hr

/-- C9, witness: the concrete credential without expiry_date. -/
theorem C9_missing_expiry_witness :
    (0 : Int) ≤ 600000 ∧
    noExpiryTokens.expiry_date = none ∧
    (isTokenExpired 600000 noExpiryTokens = true
      ∧ isAuthenticated 600000 (.ok (some noExpiryTokens)) = false
      ∧ ((getValidAccessToken 600000 (some noExpiryTokens) freshTokens
            (.ok refreshedTokens)).refreshCalls = 1 ∨
          (getValidAccessToken 600000 (some noExpiryTokens) freshTokens
            (.ok refreshedTokens)).result = .error .noRefreshTokenAvailable)) :=
  ⟨by decide, rfl,
    C9_missing_expiry 600000 noExpiryTokens freshTokens (.ok refreshedTokens)
      (by decide) rfl⟩

/-- C10: the file-fallback encryption key is a deterministic function of
the hostname and the OS username only: it is the PBKDF2 derivation over the
fixed password mcp-oauth with the hostname-username salt, 100000 iterations
and 32-byte output; two environments agreeing on hostname and username
(different process starts included) derive byte-identical keys, and the
whole encryption of any credential agrees as well, so the key does not
depend on the credential being encrypted or on any per-process state. -/
theorem C10_derived_key_deterministic :
    (∀ e1 e2 : SysEnv, e1.hostname = e2.hostname → e1.username = e2.username →
        getDerivedKey e1 = getDerivedKey e2)
    ∧ (∀ env, getDerivedKey env =
        pbkdf2 "mcp-oauth" (env.hostname ++ "-" ++ env.username) 100000 32)
    ∧ (∀ env, (getDerivedKey env).length = 32)
    ∧ (∀ (e1 e2 : SysEnv) iv t, e1.hostname = e2.hostname →
        e1.username = e2.username →
        encryptTokenDataFile e1 iv t = encryptTokenDataFile e2 iv t) := by
  have hkey : ∀ e1 e2 : SysEnv, e1.hostname = e2.hostname →
      e1.username = e2.username → getDerivedKey e1 = getDerivedKey e2 := by
    intro e1 e2 hh hu
    simp only [getDerivedKey, hh, hu]
  refine ⟨hkey, fun env => rfl, ?_, ?_⟩
  · intro env
    simp [getDerivedKey, pbkdf2]
  · intro e1 e2 iv t hh hu
    rw [encryptTokenDataFile_eq, encryptTokenDataFile_eq, hkey e1 e2 hh hu]

/-- C10, witness: two environments equal up to the process-start field
derive the same key and the same envelope for a concrete credential. -/
theorem C10_derived_key_deterministic_witness :
    (SysEnv.mk "host" "alice" 7).hostname = (SysEnv.mk "host" "alice" 99).hostname ∧
    (SysEnv.mk "host" "alice" 7).username = (SysEnv.mk "host" "alice" 99).username ∧
    getDerivedKey (SysEnv.mk "host" "alice" 7) =
      getDerivedKey (SysEnv.mk "host" "alice" 99) ∧
    encryptTokenDataFile (SysEnv.mk "host" "alice" 7) [1, 2, 3] freshTokens =
      encryptTokenDataFile (SysEnv.mk "host" "alice" 99) [1, 2, 3] freshTokens :=
  ⟨rfl, rfl,
    C10_derived_key_deterministic.1 _ _ rfl rfl,
    C10_derived_key_deterministic.2.2.2 _ _ [1, 2, 3] freshTokens rfl rfl⟩
